import Mathlib

/-!
Verification of the Discovery API client in `src/generator/discovery:v1.gen.ts`
(repository `bcoe/deno_googleapis`).

The client holds an authentication capability and a base URL, and exposes two
read operations, `apisGetRest` and `apisList`, which build a request URL and
delegate a GET request to the capability.  We embed the client shallowly:

* JSON values are an inductive `Json` type.
* The authentication capability is a function from an HTTP request to either a
  transport error or a JSON value.
* The transport side effect is made observable by threading a `World` that
  carries the client configuration (the `this` object) and a log of every HTTP
  request handed to the capability; each call to the capability appends exactly
  one entry.
* `new URL(s)` followed by `searchParams.append` and `.href` is embedded by a
  `URL` structure holding the pre-query part and the ordered parameter list,
  with `href` performing application/x-www-form-urlencoded serialization of the
  parameters, as the WHATWG URL class does.
-/

/-- A JSON value, as returned by the transport capability. -/
inductive Json where
  | null : Json
  | bool (b : Bool) : Json
  | num (n : Int) : Json
  | str (s : String) : Json
  | arr (elems : List Json) : Json
  | obj (fields : List (String × Json)) : Json

/-- Field lookup on a JSON object; `none` when the field is absent or the
value is not an object. -/
def Json.getField : Json → String → Option Json
  | .obj fields, k => fields.lookup k
  | _, _ => none

/-- Lookup along a path of field names. -/
def Json.getPath : Json → List String → Option Json
  | j, [] => some j
  | j, k :: ks =>
    match j.getField k with
    | some v => Json.getPath v ks
    | none => none

/-- The error taxonomy of the transport capability: network failure,
authentication failure, non-2xx HTTP status, or JSON decoding failure. -/
inductive TransportError where
  | network (msg : String) : TransportError
  | authFailure (msg : String) : TransportError
  | httpStatus (code : Nat) : TransportError
  | decodeFailure (msg : String) : TransportError
deriving DecidableEq

/-- One HTTP request handed to the authentication capability: the full URL,
the HTTP method, and the optional request body. -/
structure HttpRequest where
  url : String
  method : String
  body : Option String
deriving DecidableEq

/-- The second argument of `auth.request(url, init)`.  The source passes
`\x7b method: "GET" \x7d` with no body key, so `body` defaults to `none`. -/
structure RequestInit where
  method : String
  body : Option String := none

/-- Modelled from the spec: the `Auth` interface lives in `../auth/mod.ts`,
which is not part of the sources here.  Per the spec it is a capability that
can "perform an authenticated HTTP request given a URL and method, returning
parsed JSON or failing with a transport/auth error".  We model it as the
request function together with whether it attaches credentials. -/
structure Auth where
  request : HttpRequest → Except TransportError Json
  attachesCredentials : Bool

/-- Modelled from the spec: `Anonymous` (from `../auth/mod.ts`, not in the
sources here) "performs unauthenticated requests": it issues the ambient
fetch with no credentials attached. -/
def Anonymous.new (fetch : HttpRequest → Except TransportError Json) : Auth :=
  { request := fetch, attachesCredentials := false }

/-- The `Discovery` client: the private fields `#auth` and `#baseUrl`,
assigned in the constructor. -/
structure Discovery where
  auth : Auth
  baseUrl : String

/-- The `Discovery` constructor
`constructor(auth = new Anonymous(), baseUrl = "https://www.googleapis.com/discovery/v1/")`.
An omitted argument is `none`; `fetch` is the ambient transport that a default
`Anonymous` capability wraps. -/
def Discovery.new (fetch : HttpRequest → Except TransportError Json)
    (auth : Option Auth) (baseUrl : Option String) : Discovery :=
  { auth := auth.getD (Anonymous.new fetch),
    baseUrl := baseUrl.getD "https://www.googleapis.com/discovery/v1/" }

/-- The mutable world of a client call: the `this` object and the log of HTTP
requests issued to the authentication capability so far. -/
structure World where
  client : Discovery
  log : List HttpRequest

/-- The call `auth.request(url, init)`: appends the issued request to the log
and returns whatever the capability answers. -/
def Auth.requestW (a : Auth) (url : String) (init : RequestInit) (w : World) :
    Except TransportError Json × World :=
  let req : HttpRequest := { url := url, method := init.method, body := init.body }
  (a.request req, { w with log := w.log ++ [req] })

/-- The uppercase hexadecimal digit for `n < 16`. -/
def hexUpper (n : Nat) : Char :=
  if n < 10 then Char.ofNat (48 + n) else Char.ofNat (55 + n)

/-- Percent-encoding of one byte, uppercase hexadecimal. -/
def percentEncodeByte (b : UInt8) : String :=
  String.mk ['%', hexUpper (b.toNat / 16), hexUpper (b.toNat % 16)]

/-- application/x-www-form-urlencoded serialization of one character: space
becomes `+`, ASCII alphanumerics and `*`, `-`, `.`, `_` are kept, every other
character is percent-encoded byte-wise in UTF-8. -/
def formUrlEncodeChar (c : Char) : String :=
  if c = ' ' then "+"
  else if c.isAlphanum ∨ c = '*' ∨ c = '-' ∨ c = '.' ∨ c = '_' then
    String.singleton c
  else
    String.join (((String.singleton c).toUTF8.toList).map percentEncodeByte)

/-- application/x-www-form-urlencoded serialization of a string. -/
def formUrlEncode (s : String) : String :=
  String.join (s.toList.map formUrlEncodeChar)

/-- Serialization of an ordered query-parameter list, as
`URLSearchParams.toString` performs it. -/
def serializeQuery (ps : List (String × String)) : String :=
  String.intercalate "&"
    (ps.map fun p => formUrlEncode p.1 ++ "=" ++ formUrlEncode p.2)

/-- A URL object: the part before any query, and the ordered search
parameters. -/
structure URL where
  base : String
  searchParams : List (String × String)

/-- `new URL(s)` for an input without a query string, as constructed by the
client. -/
def URL.ofString (s : String) : URL :=
  { base := s, searchParams := [] }

/-- `url.searchParams.append(k, v)`. -/
def URL.searchAppend (u : URL) (k v : String) : URL :=
  { u with searchParams := u.searchParams ++ [(k, v)] }

/-- `url.href`: the base followed by `?` and the serialized query exactly when
at least one parameter is present. -/
def URL.href (u : URL) : String :=
  if u.searchParams.isEmpty then u.base
  else u.base ++ "?" ++ serializeQuery u.searchParams

/-- The JavaScript `String(b)` coercion of a boolean. -/
def jsStringOfBool (b : Bool) : String :=
  if b then "true" else "false"

/-- The `ApisListOptions` interface: both fields optional, absence meaning
"not supplied". -/
structure ApisListOptions where
  name : Option String := none
  preferred : Option Bool := none

/-- `Discovery.apisGetRest(api, version)`:
builds `new URL(baseUrl + "apis/" + api + "/" + version + "/rest")`, issues a
GET through the capability, and returns the answer unchanged. -/
def Discovery.apisGetRest (api version : String) (w : World) :
    Except TransportError Json × World :=
  let this := w.client
  let url := URL.ofString (this.baseUrl ++ "apis/" ++ api ++ "/" ++ version ++ "/rest")
  this.auth.requestW url.href { method := "GET" } w

/-- `Discovery.apisList(opts = \x7b\x7d)`:
builds `new URL(baseUrl + "apis")`, appends `name` and `preferred` search
parameters exactly when the corresponding option is not `undefined` (the
values coerced with `String(...)`), issues a GET through the capability, and
returns the answer unchanged. -/
def Discovery.apisList (opts : ApisListOptions) (w : World) :
    Except TransportError Json × World :=
  let this := w.client
  let url := URL.ofString (this.baseUrl ++ "apis")
  let url := match opts.name with
    | some n => url.searchAppend "name" n
    | none => url
  let url := match opts.preferred with
    | some b => url.searchAppend "preferred" (jsStringOfBool b)
    | none => url
  this.auth.requestW url.href { method := "GET" } w

/-- Spec-side description of the query parameters of an `apisList` call:
`name` and `preferred` appear, in that order, exactly when explicitly
supplied, the values coerced to their string form. -/
def listQueryParams (opts : ApisListOptions) : List (String × String) :=
  (match opts.name with
   | some n => [("name", n)]
   | none => []) ++
  (match opts.preferred with
   | some b => [("preferred", jsStringOfBool b)]
   | none => [])

/-- A transport capability answering every request with the given JSON. -/
def okFetch (j : Json) : HttpRequest → Except TransportError Json :=
  fun _ => .ok j

/-- A transport capability failing every request with the given error. -/
def failFetch (e : TransportError) : HttpRequest → Except TransportError Json :=
  fun _ => .error e

/-- A concrete world around a given transport, with the default base URL and
an empty request log. -/
def exampleWorld (fetch : HttpRequest → Except TransportError Json) : World :=
  { client := { auth := { request := fetch, attachesCredentials := false },
                baseUrl := "https://www.googleapis.com/discovery/v1/" },
    log := [] }

/-- The response body of the decoding example in the spec: a RestDescription
with `kind`, `id` and one schema `Foo`, and nothing else (in particular no
`auth` field). -/
def specRestDescriptionBody : Json :=
  .obj [("kind", .str "discovery#restDescription"),
        ("id", .str "x:v1"),
        ("schemas", .obj
          [("Foo", .obj
            [("id", .str "Foo"),
             ("properties", .obj
               [("bar", .obj [("type", .str "string")])])])])]

/-- Claim C1: for every supplied `api` and `version`, `apisGetRest` issues
exactly one GET request, whose URL is the base URL joined with
`apis/{api}/{version}/rest` with the components inserted verbatim, and no
other request. -/
theorem apisGetRest_issues_single_get_to_rest_path
    (w : World) (api version : String) :
    (Discovery.apisGetRest api version w).2.log =
      w.log ++ [⟨w.client.baseUrl ++ "apis/" ++ api ++ "/" ++ version ++ "/rest",
                 "GET", none⟩] := rfl

/-- Claim C2: for every options value, `apisList` appends the query parameters
`name` and `preferred` exactly when the corresponding option is supplied, each
value coerced to its string form; in particular the `name := "drive"` call
yields exactly `name=drive` with no `preferred` key, and the
`preferred := false` call yields exactly `preferred=false`. -/
theorem apisList_query_iff_supplied :
    (∀ (w : World) (opts : ApisListOptions),
      (Discovery.apisList opts w).2.log =
        w.log ++ [⟨URL.href ⟨w.client.baseUrl ++ "apis", listQueryParams opts⟩,
                   "GET", none⟩])
    ∧ ((Discovery.apisList { name := some "drive" }
          (exampleWorld (okFetch .null))).2.log.map HttpRequest.url =
        ["https://www.googleapis.com/discovery/v1/apis?name=drive"])
    ∧ ((Discovery.apisList { preferred := some false }
          (exampleWorld (okFetch .null))).2.log.map HttpRequest.url =
        ["https://www.googleapis.com/discovery/v1/apis?preferred=false"]) := by
  refine ⟨fun w opts => ?_, rfl, rfl⟩
  rcases opts with ⟨n, p⟩
  rcases n with _ | n <;> rcases p with _ | p <;> rfl

/-- Claim C3: every failure of the authentication capability propagates to the
caller of `apisGetRest` and `apisList` unmodified: the result is exactly that
error, never a default or replacement. -/
theorem transport_errors_propagate_unmodified
    (w : World) (api version : String) (opts : ApisListOptions)
    (e : TransportError)
    (h : ∀ r, w.client.auth.request r = .error e) :
    (Discovery.apisGetRest api version w).1 = .error e ∧
    (Discovery.apisList opts w).1 = .error e :=
  ⟨h _, h _⟩

/-- Witness for claim C3 at a capability that always fails with a network
error. -/
theorem transport_errors_propagate_unmodified_witness :
    (Discovery.apisGetRest "drive" "v3"
        (exampleWorld (failFetch (.network "down")))).1 =
      .error (.network "down") ∧
    (Discovery.apisList {} (exampleWorld (failFetch (.network "down")))).1 =
      .error (.network "down") :=
  transport_errors_propagate_unmodified
    (exampleWorld (failFetch (.network "down"))) "drive" "v3" {}
    (.network "down") (fun _ => rfl)

/-- Claim C4: every JSON value answered by the authentication capability is
returned by `apisGetRest` and `apisList` exactly as is, with no
transformation, validation, or default synthesis. -/
theorem response_returned_unmodified
    (w : World) (api version : String) (opts : ApisListOptions) (j : Json)
    (h : ∀ r, w.client.auth.request r = .ok j) :
    (Discovery.apisGetRest api version w).1 = .ok j ∧
    (Discovery.apisList opts w).1 = .ok j :=
  ⟨h _, h _⟩

/-- Witness for claim C4 at the RestDescription body of the decoding example:
the value comes back unchanged, its unset `auth` field stays absent, and the
nested `schemas.Foo.properties.bar.type` field reads `"string"`. -/
theorem response_returned_unmodified_witness :
    ((Discovery.apisGetRest "x" "v1"
        (exampleWorld (okFetch specRestDescriptionBody))).1 =
          .ok specRestDescriptionBody ∧
      (Discovery.apisList {}
        (exampleWorld (okFetch specRestDescriptionBody))).1 =
          .ok specRestDescriptionBody) ∧
    Json.getField specRestDescriptionBody "auth" = none ∧
    Json.getPath specRestDescriptionBody
      ["schemas", "Foo", "properties", "bar", "type"] = some (.str "string") :=
  ⟨response_returned_unmodified
      (exampleWorld (okFetch specRestDescriptionBody)) "x" "v1" {}
      specRestDescriptionBody (fun _ => rfl),
    rfl, rfl⟩

/-- Claim C5: whenever neither the `name` nor the `preferred` option is
supplied, the request URL of `apisList` is the base URL joined with `apis`
and carries no query string. -/
theorem apisList_no_options_no_query
    (w : World) (opts : ApisListOptions)
    (hn : opts.name = none) (hp : opts.preferred = none) :
    (Discovery.apisList opts w).2.log =
      w.log ++ [⟨w.client.baseUrl ++ "apis", "GET", none⟩] := by
  rcases opts with ⟨n, p⟩
  cases hn
  cases hp
  rfl

/-- Witness for claim C5 at the empty options value `\x7b\x7d`. -/
theorem apisList_no_options_no_query_witness :
    (({} : ApisListOptions).name = none ∧
      ({} : ApisListOptions).preferred = none) ∧
    (Discovery.apisList {} (exampleWorld (okFetch .null))).2.log =
      [⟨"https://www.googleapis.com/discovery/v1/apis", "GET", none⟩] :=
  ⟨⟨rfl, rfl⟩,
    apisList_no_options_no_query (exampleWorld (okFetch .null)) {} rfl rfl⟩

/-- Claim C6: every request handed to the authentication capability by
`apisGetRest` or `apisList` uses the method `GET` and carries no body. -/
theorem requests_are_get_without_body
    (w : World) (api version : String) (opts : ApisListOptions) :
    (∃ u, (Discovery.apisGetRest api version w).2.log =
      w.log ++ [⟨u, "GET", none⟩]) ∧
    (∃ u, (Discovery.apisList opts w).2.log =
      w.log ++ [⟨u, "GET", none⟩]) :=
  ⟨⟨_, rfl⟩, ⟨_, rfl⟩⟩

/-- Claim C7: neither operation mutates the client: the authentication
capability and base URL fields are identical before and after any call. -/
theorem client_state_unchanged
    (w : World) (api version : String) (opts : ApisListOptions) :
    (Discovery.apisGetRest api version w).2.client = w.client ∧
    (Discovery.apisList opts w).2.client = w.client :=
  ⟨rfl, rfl⟩

/-- Claim C8: every call to `apisGetRest` or `apisList` invokes the
authentication capability exactly once, whatever the outcome: the request log
grows by exactly one entry. -/
theorem exactly_one_capability_invocation
    (w : World) (api version : String) (opts : ApisListOptions) :
    (Discovery.apisGetRest api version w).2.log.length = w.log.length + 1 ∧
    (Discovery.apisList opts w).2.log.length = w.log.length + 1 := by
  constructor <;>
    simp [Discovery.apisGetRest, Discovery.apisList, Auth.requestW]

/-- Claim C9: a client constructed with no arguments defaults to an
`Anonymous` capability, which attaches no credentials, and to the base URL
`https://www.googleapis.com/discovery/v1/`. -/
theorem constructor_defaults
    (fetch : HttpRequest → Except TransportError Json) :
    (Discovery.new fetch none none).auth = Anonymous.new fetch ∧
    (Discovery.new fetch none none).auth.attachesCredentials = false ∧
    (Discovery.new fetch none none).baseUrl =
      "https://www.googleapis.com/discovery/v1/" :=
  ⟨rfl, rfl, rfl⟩

/-- Claim C10: when both options are supplied, the query string of the
`apisList` request holds exactly the two parameters, with `name` before
`preferred`. -/
theorem apisList_both_params_name_first :
    (∀ (w : World) (n : String) (b : Bool),
      (Discovery.apisList { name := some n, preferred := some b } w).2.log =
        w.log ++ [⟨URL.href ⟨w.client.baseUrl ++ "apis",
                    [("name", n), ("preferred", jsStringOfBool b)]⟩,
                   "GET", none⟩])
    ∧ ((Discovery.apisList { name := some "drive", preferred := some true }
          (exampleWorld (okFetch .null))).2.log.map HttpRequest.url =
        ["https://www.googleapis.com/discovery/v1/apis?name=drive&preferred=true"]) :=
  ⟨fun _ _ _ => rfl, rfl⟩
